import Mathlib

/-!
Verification of the bounded-counter fragment of the repository.

The repository ships, under `examples/src`:
  * `counter.h` — the C interface of an opaque bounded counter
    (`counter_create`, `counter_incr`, `counter_get`, `counter_destroy`);
  * `counter.c` — a command-line driver whose `main` parses a decimal
    count with `strtoull(argv[1], NULL, 10)`, creates one counter,
    increments it that many times stopping at the first overflow signal,
    prints either the final value or the text `overflow`, destroys the
    counter and exits with status 0 or -1;
  * `ffi.c` — disconnected FFI anchor fragments, out of scope.

The counter operations themselves are only declared in `counter.h`; their
implementation is not part of the provided sources, so they are modelled
from the specification below.  The driver `main` in `counter.c` is
embedded faithfully from the C source.

Machine integers are embedded as `Nat` with explicit bounds: the counter
value is a `Nat` kept `≤ UINT32_MAX` by the operations, and the libc
`strtoull` conversion clamps at `ULLONG_MAX = 2 ^ 64 - 1` (the driver's
`size_t` is taken to be 64 bits wide, as on the usual build platforms).
-/

namespace RustGuideCounter

/-- `UINT32_MAX`, the largest value of a C `uint32_t`. -/
def UINT32_MAX : Nat := 4294967295

/-- `ULLONG_MAX`, the largest value of a C `unsigned long long`. -/
def ULLONG_MAX : Nat := 18446744073709551615

/-- Result signal of `counter_incr` (declared `int` in `counter.h`):
success, or the distinct non-fatal overflow condition. -/
inductive IncrResult where
  | ok : IncrResult
  | overflow : IncrResult
  deriving DecidableEq

/-- The C `int` return code carried by an `IncrResult`.  Modelled from the
spec: success is `0` (the driver tests `counter_incr(c) != 0`), and the
overflow signal is the distinct non-zero code `-1`. -/
def IncrResult.code : IncrResult → Int
  | .ok => 0
  | .overflow => -1

/-- `true` exactly on the success signal. -/
def IncrResult.isOk : IncrResult → Bool
  | .ok => true
  | .overflow => false

/-- Result signal of `counter_destroy` (declared `int` in `counter.h`):
success, or the `InvalidHandle` failure condition. -/
inductive DestroyResult where
  | ok : DestroyResult
  | invalidHandle : DestroyResult
  deriving DecidableEq

/-- The C `int` return code carried by a `DestroyResult`.  Modelled from
the spec: success is `0`, the `InvalidHandle` failure is the distinct
non-zero code `-1`. -/
def DestroyResult.code : DestroyResult → Int
  | .ok => 0
  | .invalidHandle => -1

/-- The state of one counter handle: live with a value, or destroyed.
A handle that was never created, or was already released, is the
`destroyed` state (the defensive double-free check of the spec). -/
inductive CounterState where
  | live : Nat → CounterState
  | destroyed : CounterState
  deriving DecidableEq

/-- Modelled from the spec: `counter_create` (declared in `counter.h`,
implementation not in the provided sources) allocates a new counter with
`value = 0`. -/
def counter_create : CounterState := .live 0

/-- Modelled from the spec: `counter_incr` (declared in `counter.h`,
implementation not in the provided sources) attempts `value = value + 1`;
if `value == UINT32_MAX` it leaves the value unchanged and signals the
overflow condition, otherwise it increases the value by exactly 1 and
signals success.  Calling it on a destroyed handle is outside the spec's
precondition; the model signals the non-success code and leaves the state
unchanged there. -/
def counter_incr : CounterState → IncrResult × CounterState
  | .live v => if v = UINT32_MAX then (.overflow, .live v) else (.ok, .live (v + 1))
  | .destroyed => (.overflow, .destroyed)

/-- Modelled from the spec: `counter_get` (declared in `counter.h`,
implementation not in the provided sources) returns the current value
with no side effect.  Its precondition is a live handle; the model
returns 0 on a destroyed handle, a case no claim exercises. -/
def counter_get : CounterState → Nat
  | .live v => v
  | .destroyed => 0

/-- Modelled from the spec: `counter_destroy` (declared in `counter.h`,
implementation not in the provided sources) releases a live counter and
signals success; on an already-destroyed (or never-created) handle it
signals the `InvalidHandle` failure condition instead. -/
def counter_destroy : CounterState → DestroyResult × CounterState
  | .live _ => (.ok, .destroyed)
  | .destroyed => (.invalidHandle, .destroyed)

/-- The operations of the counter API that keep a handle live, used to
describe the states reachable from `counter_create`. -/
inductive Op where
  | incrO : Op
  | getO : Op
  deriving DecidableEq

/-- One step of the counter API on a handle: `incrO` applies
`counter_incr` (keeping the new state), `getO` applies `counter_get`,
which has no side effect. -/
def stepOp (st : CounterState) : Op → CounterState
  | .incrO => (counter_incr st).2
  | .getO => st

/-- The state reached from a fresh counter by a sequence of increment and
get operations. -/
def runOps (ops : List Op) : CounterState := ops.foldl stepOp counter_create

/-- The data-model invariant: a live counter value is between 0 and
`UINT32_MAX` (the lower bound is inherent to `Nat`). -/
def counterInv : CounterState → Prop
  | .live v => v ≤ UINT32_MAX
  | .destroyed => True

/-- `incrTimes n st` performs `counter_incr` `n` times in sequence,
returning the final state and whether every one of the `n` calls
signalled success. -/
def incrTimes : Nat → CounterState → CounterState × Bool
  | 0, st => (st, true)
  | k + 1, st =>
      let p := counter_incr st
      let q := incrTimes k p.2
      (q.1, p.1.isOk && q.2)

/-- C `isspace` in the default locale: space (32) and the characters with
codes 9 to 13 (tab, newline, vertical tab, form feed, carriage return). -/
def isCSpace (c : Char) : Bool :=
  c.toNat = 32 || (9 ≤ c.toNat && c.toNat ≤ 13)

/-- C `isdigit`: the decimal digits, character codes 48 to 57. -/
def isDigitC (c : Char) : Bool :=
  48 ≤ c.toNat && c.toNat ≤ 57

/-- Strips one optional leading sign, returning whether it was a minus
sign and the remaining characters, as `strtoull` does after skipping
whitespace. -/
def signSplit (l : List Char) : Bool × List Char :=
  match l with
  | [] => (false, [])
  | c :: r =>
      if c = '+' then (false, r)
      else if c = '-' then (true, r)
      else (false, c :: r)

/-- The value of a list of decimal digit characters, most significant
first. -/
def digitsVal (ds : List Char) : Nat :=
  ds.foldl (fun a c => a * 10 + (c.toNat - 48)) 0

/-- The libc `strtoull(s, NULL, 10)` call of the driver: skip leading
whitespace, accept one optional sign, convert the longest run of decimal
digits (an empty run converts to 0 with no error), clamp to `ULLONG_MAX`
on overflow, and negate modulo `2 ^ 64` after a minus sign. -/
def strtoull10 (s : String) : Nat :=
  let p := signSplit (s.data.dropWhile isCSpace)
  let v := min (digitsVal (p.2.takeWhile isDigitC)) ULLONG_MAX
  if p.1 then (2 ^ 64 - v) % 2 ^ 64 else v

/-- Whether the string begins with an optional whitespace/sign run
followed by a decimal digit, i.e. whether `strtoull` finds any digit to
convert. -/
def numberLead (s : List Char) : Bool :=
  match (signSplit (s.dropWhile isCSpace)).2 with
  | [] => false
  | d :: _ => isDigitC d

/-- An observable counter-API event of one driver run: creation, an
increment returning a code, a read returning a value, or a destruction
returning a code. -/
inductive CEvent where
  | createE : CEvent
  | incrE : Int → CEvent
  | getE : Nat → CEvent
  | destroyE : Int → CEvent
  deriving DecidableEq

/-- The observable outcome of one driver run: everything printed to
standard output, the exit status of `main`, and the trace of counter-API
calls it performed. -/
structure DriverRun where
  out : String
  exit : Int
  events : List CEvent
  deriving DecidableEq

/-- The `for (i = 0; i < n; i++)` loop of `main` in `counter.c`: each
iteration calls `counter_incr` and, when the returned code is not 0,
stops early.  Returns the emitted increment events, the final counter
state, and `true` when all `n` iterations succeeded. -/
def driverLoop : Nat → CounterState → List CEvent × CounterState × Bool
  | 0, st => ([], st, true)
  | k + 1, st =>
      let p := counter_incr st
      if p.1.code = 0 then
        let q := driverLoop k p.2
        (.incrE p.1.code :: q.1, q.2)
      else
        ([.incrE p.1.code], p.2, false)

/-- The body of `main` in `counter.c` once `argc >= 2` is known, as a
function of `argv[1]`: parse `n` with `strtoull`, create a counter,
run the increment loop; on an overflow signal print `overflow`, destroy
the counter and return -1; otherwise print the decimal value of
`counter_get` followed by a newline, destroy the counter and return 0. -/
def cmainRun (a1 : String) : DriverRun :=
  let n := strtoull10 a1
  let r := driverLoop n counter_create
  if r.2.2 then
    let v := counter_get r.2.1
    let d := counter_destroy r.2.1
    ⟨Nat.repr v ++ "\n", 0, .createE :: r.1 ++ [.getE v, .destroyE d.1.code]⟩
  else
    let d := counter_destroy r.2.1
    ⟨"overflow\n", -1, .createE :: r.1 ++ [.destroyE d.1.code]⟩

/-- `main` of `counter.c` on an argument vector (`argv[0]` is the program
name, so `argc < 2` is a list with fewer than two entries): with no
argument it returns -1 at once, printing nothing and touching no
counter; otherwise it runs the body on `argv[1]`. -/
def cmain : List String → DriverRun
  | _ :: a1 :: _ => cmainRun a1
  | _ => ⟨"", -1, []⟩

/-! ## Basic lemmas about the counter operations -/

/-- `counter_incr` on a live value below the maximum succeeds and adds 1. -/
lemma counter_incr_lt {v : Nat} (h : v < UINT32_MAX) :
    counter_incr (.live v) = (.ok, .live (v + 1)) := by
  simp [counter_incr, Nat.ne_of_lt h]

/-- `counter_incr` at the maximum signals overflow and changes nothing. -/
lemma counter_incr_max :
    counter_incr (.live UINT32_MAX) = (.overflow, .live UINT32_MAX) := by
  simp [counter_incr]

/-- Performing `k` increments from a live value that stays within bounds
reaches `v + k` with every call succeeding. -/
lemma incrTimes_ok (k : Nat) : ∀ v : Nat, v + k ≤ UINT32_MAX →
    incrTimes k (.live v) = (.live (v + k), true) := by
  induction k with
  | zero => intro v _; simp [incrTimes]
  | succ k ih =>
      intro v hv
      have hlt : v < UINT32_MAX := by omega
      have hrec : incrTimes k (.live (v + 1)) = (.live (v + 1 + k), true) := by
        apply ih; omega
      have hadd : v + 1 + k = v + (k + 1) := by omega
      simp only [incrTimes, counter_incr_lt hlt, hrec, hadd]
      rfl

/-- The driver loop on a live value that stays within bounds performs all
`k` increments, each emitting the success code 0. -/
lemma driverLoop_ok (k : Nat) : ∀ v : Nat, v + k ≤ UINT32_MAX →
    driverLoop k (.live v) =
      (List.replicate k (.incrE 0), .live (v + k), true) := by
  induction k with
  | zero => intro v _; simp [driverLoop]
  | succ k ih =>
      intro v hv
      have hlt : v < UINT32_MAX := by omega
      have hrec : driverLoop k (.live (v + 1)) =
          (List.replicate k (.incrE 0), .live (v + 1 + k), true) := by
        apply ih; omega
      have hadd : v + 1 + k = v + (k + 1) := by omega
      simp only [driverLoop, counter_incr_lt hlt, hrec, IncrResult.code,
        List.replicate_succ, hadd]
      rfl

/-- The driver loop from a live value, given enough iterations to pass
the maximum, performs `UINT32_MAX - v` successful increments and stops at
the first overflow signal. -/
lemma driverLoop_overflow (k : Nat) : ∀ v : Nat, v ≤ UINT32_MAX →
    UINT32_MAX < v + k →
    driverLoop k (.live v) =
      (List.replicate (UINT32_MAX - v) (.incrE 0) ++ [.incrE (-1)],
        .live UINT32_MAX, false) := by
  induction k with
  | zero => intro v hv hk; omega
  | succ k ih =>
      intro v hv hk
      rcases Nat.lt_or_ge v UINT32_MAX with hlt | hge
      · have hrec := ih (v + 1) (by omega) (by omega)
        have hsub : UINT32_MAX - v = (UINT32_MAX - (v + 1)) + 1 := by omega
        simp only [driverLoop, counter_incr_lt hlt, hrec, IncrResult.code,
          hsub, List.replicate_succ, List.cons_append]
        rfl
      · have hveq : v = UINT32_MAX := by omega
        subst hveq
        have hsub : UINT32_MAX - UINT32_MAX = 0 := by omega
        simp [driverLoop, counter_incr_max, IncrResult.code, hsub]

/-- The driver loop never destroys the counter: from a live state it ends
in a live state. -/
lemma driverLoop_live (k : Nat) : ∀ v : Nat,
    ∃ w : Nat, (driverLoop k (.live v)).2.1 = .live w := by
  induction k with
  | zero => intro v; exact ⟨v, rfl⟩
  | succ k ih =>
      intro v
      by_cases hv : v = UINT32_MAX
      · subst hv
        exact ⟨UINT32_MAX, by simp [driverLoop, counter_incr_max, IncrResult.code]⟩
      · have hstep : counter_incr (.live v) = (.ok, .live (v + 1)) := by
          simp [counter_incr, hv]
        obtain ⟨w, hw⟩ := ih (v + 1)
        exact ⟨w, by simp [driverLoop, hstep, IncrResult.code, hw]⟩

/-- The invariant is preserved by any run of increment and get steps. -/
lemma counterInv_foldl (ops : List Op) : ∀ st : CounterState, counterInv st →
    counterInv (ops.foldl stepOp st) := by
  induction ops with
  | nil => intro st h; exact h
  | cons op rest ih =>
      intro st h
      apply ih
      cases op with
      | getO => exact h
      | incrO =>
          cases st with
          | destroyed => trivial
          | live v =>
              by_cases hv : v = UINT32_MAX
              · subst hv; simpa [stepOp, counter_incr_max] using h
              · have hlt : v < UINT32_MAX := by
                  have : v ≤ UINT32_MAX := h
                  omega
                simp only [stepOp, counter_incr_lt hlt]
                exact by simpa [counterInv] using hlt

/-! ## Lemmas about the driver's argument parsing -/

/-- A decimal digit is not whitespace. -/
lemma isCSpace_eq_false_of_digit {c : Char} (h : isDigitC c = true) :
    isCSpace c = false := by
  simp only [isDigitC, Bool.and_eq_true, decide_eq_true_eq] at h
  simp only [isCSpace, Bool.or_eq_false_iff, Bool.and_eq_false_iff,
    decide_eq_false_iff_not]
  omega

/-- A decimal digit is not a sign character. -/
lemma digit_ne_sign {c : Char} (h : isDigitC c = true) :
    c ≠ '+' ∧ c ≠ '-' := by
  simp only [isDigitC, Bool.and_eq_true, decide_eq_true_eq] at h
  constructor <;> intro hc <;> subst hc <;> simp at h

/-- On a nonempty all-digit string, `strtoull10` returns exactly the
value of the digits (clamped only above `ULLONG_MAX`, which an in-range
value never reaches). -/
lemma strtoull10_digits (s : String) (hne : s.data ≠ [])
    (hd : ∀ c ∈ s.data, isDigitC c = true)
    (hle : digitsVal s.data ≤ UINT32_MAX) :
    strtoull10 s = digitsVal s.data := by
  obtain ⟨c, t, hct⟩ : ∃ c t, s.data = c :: t := by
    cases hcs : s.data with
    | nil => exact absurd hcs hne
    | cons c t => exact ⟨c, t, rfl⟩
  have hc : isDigitC c = true := hd c (by rw [hct]; exact List.mem_cons_self c t)
  have hdrop : s.data.dropWhile isCSpace = s.data := by
    rw [hct, List.dropWhile_cons, isCSpace_eq_false_of_digit hc]
    simp
  have hsign : signSplit s.data = (false, s.data) := by
    rw [hct]
    simp [signSplit, (digit_ne_sign hc).1, (digit_ne_sign hc).2]
  have htake : s.data.takeWhile isDigitC = s.data :=
    List.takeWhile_eq_self_iff.mpr hd
  have hmin : min (digitsVal s.data) ULLONG_MAX = digitsVal s.data := by
    have : digitsVal s.data ≤ ULLONG_MAX := by
      simp only [UINT32_MAX, ULLONG_MAX] at *
      omega
    exact Nat.min_eq_left this
  simp only [strtoull10, hdrop, hsign, htake, hmin]
  rfl

/-- When the argument has no leading number, `strtoull10` converts
nothing and returns 0. -/
lemma strtoull10_eq_zero_of_no_number (s : String)
    (h : numberLead s.data = false) : strtoull10 s = 0 := by
  simp only [numberLead] at h
  have htake : ((signSplit (s.data.dropWhile isCSpace)).2.takeWhile isDigitC) = [] := by
    cases hu : (signSplit (s.data.dropWhile isCSpace)).2 with
    | nil => rfl
    | cons d t =>
        rw [hu] at h
        rw [List.takeWhile_cons]
        simp [show isDigitC d = false from h]
  simp only [strtoull10, htake]
  cases hb : (signSplit (s.data.dropWhile isCSpace)).1 <;>
    simp [digitsVal, List.foldl_nil]

/-! ## The claims -/

/-- C1. Incrementing a live counter whose value is `UINT32_MAX` leaves
the value unchanged and returns the distinct, non-fatal overflow result
code (no wraparound, no abort), so `counter_get` afterwards still returns
`UINT32_MAX`. -/
theorem incr_at_max_overflows :
    counter_incr (.live UINT32_MAX) = (.overflow, .live UINT32_MAX) ∧
    IncrResult.overflow ≠ IncrResult.ok ∧
    IncrResult.overflow.code ≠ IncrResult.ok.code ∧
    counter_get (counter_incr (.live UINT32_MAX)).2 = UINT32_MAX := by
  refine ⟨counter_incr_max, by decide, by decide, ?_⟩
  rw [counter_incr_max]
  rfl

/-- C2. `counter_get` right after `counter_create` returns 0, and for
every `n ≤ UINT32_MAX`, performing `n` increments on a fresh counter
makes every call signal success and `counter_get` return exactly `n`. -/
theorem incr_n_times_from_create (n : Nat) (h : n ≤ UINT32_MAX) :
    counter_get counter_create = 0 ∧
    incrTimes n counter_create = (.live n, true) ∧
    counter_get (incrTimes n counter_create).1 = n := by
  have hrun : incrTimes n counter_create = (.live n, true) := by
    have := incrTimes_ok n 0 (by omega)
    simpa [counter_create] using this
  exact ⟨rfl, hrun, by rw [hrun]; rfl⟩

/-- Witness for C2 at `n = 5`. -/
theorem incr_n_times_from_create_witness :
    5 ≤ UINT32_MAX ∧
    (counter_get counter_create = 0 ∧
      incrTimes 5 counter_create = (.live 5, true) ∧
      counter_get (incrTimes 5 counter_create).1 = 5) :=
  ⟨by decide, incr_n_times_from_create 5 (by decide)⟩

/-- C3. Every state reachable from `counter_create` by increment and get
operations satisfies the invariant `value ≤ UINT32_MAX`; the operations
preserve the invariant; and on a live in-bounds value an increment either
advances the value by exactly 1 (signalling success) or, exactly at the
maximum, leaves the state identical (signalling overflow). -/
theorem counter_invariant_reachable (ops : List Op) (st : CounterState)
    (v : Nat) (hst : counterInv st) (hv : v ≤ UINT32_MAX) :
    counterInv (runOps ops) ∧
    counterInv (counter_incr st).2 ∧
    counterInv (stepOp st .getO) ∧
    ((v < UINT32_MAX ∧ counter_incr (.live v) = (.ok, .live (v + 1))) ∨
      (v = UINT32_MAX ∧ counter_incr (.live v) = (.overflow, .live v))) := by
  refine ⟨counterInv_foldl ops counter_create (by simp [counter_create, counterInv, UINT32_MAX]),
    ?_, hst, ?_⟩
  · have := counterInv_foldl [.incrO] st hst
    simpa [stepOp] using this
  · rcases Nat.lt_or_ge v UINT32_MAX with hlt | hge
    · exact Or.inl ⟨hlt, counter_incr_lt hlt⟩
    · have hveq : v = UINT32_MAX := by omega
      subst hveq
      exact Or.inr ⟨rfl, counter_incr_max⟩

/-- Witness for C3 at a concrete operation list, state and value. -/
theorem counter_invariant_reachable_witness :
    counterInv (.live 3) ∧ (7 : Nat) ≤ UINT32_MAX ∧
    (counterInv (runOps [.incrO, .getO, .incrO]) ∧
      counterInv (counter_incr (.live 3)).2 ∧
      counterInv (stepOp (.live 3) .getO) ∧
      ((7 < UINT32_MAX ∧ counter_incr (.live 7) = (.ok, .live (7 + 1))) ∨
        (7 = UINT32_MAX ∧ counter_incr (.live 7) = (.overflow, .live 7)))) :=
  ⟨by simp [counterInv, UINT32_MAX], by decide,
    counter_invariant_reachable [.incrO, .getO, .incrO] (.live 3) 7
      (by simp [counterInv, UINT32_MAX]) (by decide)⟩

/-- C4. `counter_destroy` on a live handle signals success (and the
handle becomes destroyed); on an already-destroyed or never-created
handle it signals the distinct `InvalidHandle` failure instead. -/
theorem destroy_result_codes (v : Nat) :
    counter_destroy (.live v) = (.ok, .destroyed) ∧
    counter_destroy .destroyed = (.invalidHandle, .destroyed) ∧
    DestroyResult.invalidHandle ≠ DestroyResult.ok := by
  exact ⟨rfl, rfl, by decide⟩

/-- C5. On a nonempty all-digit argument denoting `n ≤ UINT32_MAX`, the
driver creates one counter, performs exactly `n` increments all
signalling success, prints the decimal value `n` followed by a newline,
destroys the counter and exits with status 0. -/
theorem driver_prints_value (p s : String) (n : Nat) (hne : s.data ≠ [])
    (hd : ∀ c ∈ s.data, isDigitC c = true) (hval : digitsVal s.data = n)
    (hle : n ≤ UINT32_MAX) :
    cmain [p, s] =
      ⟨Nat.repr n ++ "\n", 0,
        .createE :: List.replicate n (.incrE 0) ++ [.getE n, .destroyE 0]⟩ := by
  have hstr : strtoull10 s = n := by
    rw [strtoull10_digits s hne hd (hval ▸ hle), hval]
  have hloop : driverLoop n counter_create =
      (List.replicate n (.incrE 0), .live n, true) := by
    have := driverLoop_ok n 0 (by omega)
    simpa [counter_create] using this
  show cmainRun s = _
  simp only [cmainRun, hstr, hloop]
  rfl

/-- Witness for C5: the driver on argument `"5"` prints `5` and exits 0,
after five successful increments. -/
theorem driver_prints_value_witness :
    ("5" : String).data ≠ [] ∧ (∀ c ∈ ("5" : String).data, isDigitC c = true) ∧
    digitsVal ("5" : String).data = 5 ∧ 5 ≤ UINT32_MAX ∧
    cmain ["prog", "5"] =
      ⟨Nat.repr 5 ++ "\n", 0,
        .createE :: List.replicate 5 (.incrE 0) ++ [.getE 5, .destroyE 0]⟩ :=
  ⟨by decide, by decide, by decide, by decide,
    driver_prints_value ("prog") ("5") 5 (by decide) (by decide) (by decide)
      (by decide)⟩

/-- C6. On any argument parsing to a count above `UINT32_MAX`, the driver
performs `UINT32_MAX` successful increments, stops at the first increment
that signals overflow, prints the literal text `overflow` (and no counter
value), destroys the counter and exits with the non-zero status -1. -/
theorem driver_overflow_stops (p s : String)
    (h : UINT32_MAX < strtoull10 s) :
    cmain [p, s] =
      ⟨"overflow\n", -1,
        .createE :: (List.replicate UINT32_MAX (.incrE 0) ++ [.incrE (-1)])
          ++ [.destroyE 0]⟩ := by
  have hloop : driverLoop (strtoull10 s) counter_create =
      (List.replicate UINT32_MAX (.incrE 0) ++ [.incrE (-1)],
        .live UINT32_MAX, false) := by
    have := driverLoop_overflow (strtoull10 s) 0 (by omega) (by omega)
    simpa [counter_create] using this
  show cmainRun s = _
  simp only [cmainRun, hloop]
  rfl

/-- Witness for C6: the driver on argument `"4294967296"`
(`UINT32_MAX + 1`) prints `overflow` and exits with status -1. -/
theorem driver_overflow_stops_witness :
    UINT32_MAX < strtoull10 ("4294967296") ∧
    cmain ["prog", "4294967296"] =
      ⟨"overflow\n", -1,
        .createE :: (List.replicate UINT32_MAX (.incrE 0) ++ [.incrE (-1)])
          ++ [.destroyE 0]⟩ :=
  ⟨by decide, driver_overflow_stops ("prog") ("4294967296") (by decide)⟩

/-- C7. With fewer than two argv entries (no argument after the program
name), the driver exits at once with status -1, prints nothing and
performs no counter operation. -/
theorem driver_missing_arg (argv : List String) (h : argv.length < 2) :
    cmain argv = ⟨"", -1, []⟩ := by
  match argv with
  | [] => rfl
  | [_] => rfl
  | _ :: _ :: _ =>
      simp only [List.length_cons] at h
      omega

/-- Witness for C7 at the empty argument vector. -/
theorem driver_missing_arg_witness :
    ([] : List String).length < 2 ∧ cmain [] = ⟨"", -1, []⟩ :=
  ⟨by decide, driver_missing_arg [] (by decide)⟩

/-- C8. On every run that creates a counter (every run with at least two
argv entries), the last counter-API event before exit is a successful
destroy of the created handle: the driver never exits holding an
unreleased counter. -/
theorem driver_releases_before_exit (argv : List String)
    (h : 2 ≤ argv.length) :
    CEvent.createE ∈ (cmain argv).events ∧
    (cmain argv).events.getLast? = some (.destroyE 0) := by
  match argv with
  | _ :: a1 :: _ =>
      show CEvent.createE ∈ (cmainRun a1).events ∧
        (cmainRun a1).events.getLast? = some (.destroyE 0)
      obtain ⟨w, hw⟩ := driverLoop_live (strtoull10 a1) 0
      have hdes : counter_destroy
          (driverLoop (strtoull10 a1) counter_create).2.1 = (.ok, .destroyed) := by
        rw [show counter_create = CounterState.live 0 from rfl, hw]
        rfl
      by_cases hb : (driverLoop (strtoull10 a1) counter_create).2.2 = true
      · simp only [cmainRun, hb, if_true, hdes]
        exact ⟨List.mem_append_left _ (List.mem_cons_self _ _),
          by rw [List.getLast?_append_cons]; rfl⟩
      · simp only [cmainRun, hb, if_false, Bool.false_eq_true, hdes]
        exact ⟨List.mem_append_left _ (List.mem_cons_self _ _),
          by rw [List.getLast?_append_cons]; rfl⟩
  | [] => simp at h
  | [_] => simp at h

/-- Witness for C8 at a concrete argument vector. -/
theorem driver_releases_before_exit_witness :
    2 ≤ (["prog", "5"] : List String).length ∧
    (CEvent.createE ∈ (cmain ["prog", "5"]).events ∧
      (cmain ["prog", "5"]).events.getLast? = some (.destroyE 0)) :=
  ⟨by decide, driver_releases_before_exit ["prog", "5"] (by decide)⟩

/-- C9. On an argument with no leading decimal number (after optional
whitespace and sign), `strtoull` converts nothing and yields 0, so the
driver behaves exactly as on argument `"0"`: it performs no increments,
prints `0` and exits with status 0. -/
theorem driver_nonnumeric_as_zero (p s : String)
    (h : numberLead s.data = false) :
    strtoull10 s = 0 ∧
    cmain [p, s] = cmain [p, "0"] ∧
    cmain [p, s] = ⟨"0\n", 0, [.createE, .getE 0, .destroyE 0]⟩ := by
  have h0 := strtoull10_eq_zero_of_no_number s h
  have hrun : cmainRun s = ⟨"0\n", 0, [.createE, .getE 0, .destroyE 0]⟩ := by
    simp only [cmainRun, h0]
    rfl
  have hzero : cmainRun ("0") = ⟨"0\n", 0, [.createE, .getE 0, .destroyE 0]⟩ := by
    rfl
  exact ⟨h0, by show cmainRun s = cmainRun ("0"); rw [hrun, hzero], hrun⟩

/-- Witness for C9 at the argument `"abc"`. -/
theorem driver_nonnumeric_as_zero_witness :
    numberLead ("abc" : String).data = false ∧
    (strtoull10 ("abc") = 0 ∧
      cmain ["prog", "abc"] = cmain ["prog", "0"] ∧
      cmain ["prog", "abc"] = ⟨"0\n", 0, [.createE, .getE 0, .destroyE 0]⟩) :=
  ⟨by decide, driver_nonnumeric_as_zero ("prog") ("abc") (by decide)⟩

/-- C10. Two driver invocations with at least two argv entries and equal
first arguments produce identical output and identical exit status: the
driver's observable behaviour depends only on `argv[1]`, and all later
arguments are ignored. -/
theorem driver_depends_only_on_first_arg (a b : List String)
    (ha : 2 ≤ a.length) (hb : 2 ≤ b.length) (hab : a[1]? = b[1]?) :
    (cmain a).out = (cmain b).out ∧ (cmain a).exit = (cmain b).exit := by
  match a, b with
  | _ :: a1 :: _, _ :: b1 :: _ =>
      have h1 : a1 = b1 := by simpa using hab
      subst h1
      exact ⟨rfl, rfl⟩
  | [], _ => simp at ha
  | [_], _ => simp at ha
  | _ :: _ :: _, [] => simp at hb
  | _ :: _ :: _, [_] => simp at hb

/-- Witness for C10: invocations `["p", "5", "extra"]` and `["q", "5"]`
agree on output and exit status. -/
theorem driver_depends_only_on_first_arg_witness :
    2 ≤ (["p", "5", "extra"] : List String).length ∧
    2 ≤ (["q", "5"] : List String).length ∧
    (["p", "5", "extra"] : List String)[1]? = (["q", "5"] : List String)[1]? ∧
    ((cmain ["p", "5", "extra"]).out = (cmain ["q", "5"]).out ∧
      (cmain ["p", "5", "extra"]).exit = (cmain ["q", "5"]).exit) :=
  ⟨by decide, by decide, by decide,
    driver_depends_only_on_first_arg ["p", "5", "extra"] ["q", "5"]
      (by decide) (by decide) (by decide)⟩

end RustGuideCounter
